import Mathlib

/-!
Shallow embedding of `src/components/screen-catcher-client.tsx` from the
ScreenCatcher repository: a browser screen-recording UI with two capture
modes (regular recording and an "instant replay" rolling buffer).

Chunks delivered by the platform encoder are modelled as lists of bytes
(`List Nat`); a `Blob` built from a chunk list is their concatenation.
The recorder/stream callbacks are modelled as pure functions of the state
they close over and the event payload they receive.
-/

set_option autoImplicit false

namespace ScreenCatcher

/-- The `RecordingStatus` union type of the component. -/
inductive Status where
  | idle
  | permission_pending
  | countdown
  | recording
  | stopped
  | error
  | replay_buffering
  | replay_saving
deriving DecidableEq, Repr

/-- An encoded media chunk (`Blob`): an opaque byte sequence.
`event.data.size` is the length of the list. -/
abbrev Chunk := List Nat

/-- Source: `const REPLAY_CHUNK_DURATION_MS = 5000`. -/
def REPLAY_CHUNK_DURATION_MS : Nat := 5000

/-- Source: `const REPLAY_CHUNK_DURATION_SECONDS = REPLAY_CHUNK_DURATION_MS / 1000`. -/
def REPLAY_CHUNK_DURATION_SECONDS : Nat := REPLAY_CHUNK_DURATION_MS / 1000

/-- Source: `Math.ceil(currentBufferDurationTarget / REPLAY_CHUNK_DURATION_SECONDS)`,
the ceiling division written on naturals. -/
def maxChunks (window : Nat) : Nat :=
  (window + (REPLAY_CHUNK_DURATION_SECONDS - 1)) / REPLAY_CHUNK_DURATION_SECONDS

/-- Source: `while (replayBufferChunksRef.current.length > maxChunks)
{ replayBufferChunksRef.current.shift(); }` — `Array.shift` removes the
first (oldest) element, so the loop drops from the front until the length
is within the bound. -/
def trimLoop (m : Nat) : List Chunk → List Chunk
  | [] => []
  | c :: rest => if m < (c :: rest).length then trimLoop m rest else c :: rest

/-- The replay recorder's `ondataavailable` handler: if `event.data.size > 0`,
push the chunk and run the trim loop against the capacity derived from the
window value read from `instantReplayBufferDurationRef.current` at that push. -/
def replayOnDataAvailable (window : Nat) (buf : List Chunk) (data : Chunk) : List Chunk :=
  if 0 < data.length then trimLoop (maxChunks window) (buf ++ [data]) else buf

/-- Feeding a sequence of `ondataavailable` events into the replay buffer,
starting from a given buffer state, with a fixed configured window. -/
def runReplayFrom (buf : List Chunk) (window : Nat) (events : List Chunk) : List Chunk :=
  events.foldl (replayOnDataAvailable window) buf

/-- Feeding a sequence of `ondataavailable` events into an initially empty
replay buffer (the buffer is cleared when replay buffering starts). -/
def runReplay (window : Nat) (events : List Chunk) : List Chunk :=
  runReplayFrom [] window events

/-- Each buffered chunk represents `REPLAY_CHUNK_DURATION_SECONDS` of wall
clock (the recorder is started with `start(REPLAY_CHUNK_DURATION_MS)`), so a
buffer's represented duration is its length times the chunk duration. -/
def durationSeconds (buf : List Chunk) : Nat :=
  buf.length * REPLAY_CHUNK_DURATION_SECONDS

theorem chunkSeconds_eq : REPLAY_CHUNK_DURATION_SECONDS = 5 := rfl

theorem trimLoop_length_le (m : Nat) (l : List Chunk) : (trimLoop m l).length ≤ m := by
  induction l with
  | nil => simp [trimLoop]
  | cons c rest ih =>
    rw [trimLoop]
    split
    · exact ih
    · next h => exact Nat.le_of_not_lt h

theorem trimLoop_of_length_le (m : Nat) (l : List Chunk) (h : l.length ≤ m) :
    trimLoop m l = l := by
  cases l with
  | nil => rfl
  | cons c rest => rw [trimLoop, if_neg (Nat.not_lt.2 h)]

theorem replayOnDataAvailable_length_le (window : Nat) (buf : List Chunk) (data : Chunk)
    (h : buf.length ≤ maxChunks window) :
    (replayOnDataAvailable window buf data).length ≤ maxChunks window := by
  rw [replayOnDataAvailable]
  split
  · exact trimLoop_length_le _ _
  · exact h

theorem runReplayFrom_length_le (window : Nat) (events : List Chunk) (buf : List Chunk)
    (h : buf.length ≤ maxChunks window) :
    (runReplayFrom buf window events).length ≤ maxChunks window := by
  induction events generalizing buf with
  | nil => exact h
  | cons e es ih =>
    rw [runReplayFrom, List.foldl_cons]
    exact ih _ (replayOnDataAvailable_length_le window buf e h)

theorem maxChunks_mul_le (window : Nat) :
    maxChunks window * REPLAY_CHUNK_DURATION_SECONDS ≤ window + (REPLAY_CHUNK_DURATION_SECONDS - 1) :=
  Nat.div_mul_le_self _ _

/-- C1: Replay ring buffer invariant: for every sequence of pushes into the
replay buffer (each chunk representing the fixed 5-second chunk duration),
after each push the buffer length never exceeds `ceil(window / 5)` and the
total represented duration is at most the configured window plus one
chunk duration. -/
theorem replay_buffer_window_invariant (window : Nat) (events : List Chunk) :
    (runReplay window events).length ≤ maxChunks window ∧
    durationSeconds (runReplay window events) ≤ window + REPLAY_CHUNK_DURATION_SECONDS := by
  have hlen : (runReplay window events).length ≤ maxChunks window :=
    runReplayFrom_length_le window events [] (by simp)
  refine ⟨hlen, ?_⟩
  have h1 : durationSeconds (runReplay window events) ≤ maxChunks window * REPLAY_CHUNK_DURATION_SECONDS :=
    Nat.mul_le_mul_right _ hlen
  have h2 := maxChunks_mul_le window
  omega

/-- The C2 scenario input: 20 chunks pushed sequentially, chunk `i`
modelled as the singleton byte list `[i]` for `i = 1, ..., 20`. -/
def twentyChunks : List Chunk := (List.range 20).map (fun i => [i + 1])

/-- The C2 expected outcome: chunks 9 through 20, in insertion order. -/
def chunksNineToTwenty : List Chunk := (List.range 12).map (fun i => [i + 9])

theorem trimLoop_cons (m : Nat) (c : Chunk) (rest : List Chunk) :
    trimLoop m (c :: rest) = if m < (c :: rest).length then trimLoop m rest else c :: rest :=
  rfl

theorem trimLoop_full_step (m : Nat) (b : Chunk) (bt : List Chunk) (c : Chunk)
    (h : (bt ++ [c]).length = m) :
    trimLoop m (b :: (bt ++ [c])) = bt ++ [c] := by
  rw [trimLoop_cons, if_pos (by simp only [List.length_cons] at *; omega)]
  exact trimLoop_of_length_le m (bt ++ [c]) (Nat.le_of_eq h)

/-- C2: capacity and FIFO eviction of the replay buffer: the capacity equals
`ceil(window / 5)`; a push into a full buffer always evicts exactly the
oldest chunk (the head); and, concretely, with window 60 s and chunk size
5 s (capacity 12), pushing 20 chunks sequentially leaves the buffer holding
exactly chunks 9 through 20 in insertion order. -/
theorem replay_capacity_fifo_eviction (w : Nat) (buf : List Chunk) (c : Chunk)
    (hfull : buf.length = maxChunks w) (hpos : 0 < maxChunks w) (hc : 0 < c.length) :
    maxChunks 60 = 12 ∧
    replayOnDataAvailable w buf c = buf.tail ++ [c] ∧
    runReplay 60 twentyChunks = chunksNineToTwenty := by
  refine ⟨rfl, ?_, by decide⟩
  cases buf with
  | nil => rw [List.length_nil] at hfull; omega
  | cons b bt =>
    rw [replayOnDataAvailable, if_pos hc, List.cons_append, List.tail_cons]
    exact trimLoop_full_step _ b bt c (by simp only [List.length_cons] at hfull ⊢; simp; omega)

theorem replay_capacity_fifo_eviction_witness :
    replayOnDataAvailable 60 ((List.range 12).map (fun i => [i + 1])) [13] =
      ((List.range 12).map (fun i => [i + 1])).tail ++ [[13]] :=
  (replay_capacity_fifo_eviction 60 ((List.range 12).map (fun i => [i + 1])) [13]
    (by decide) (by decide) (by decide)).2.1

/-- C3: window resizing while active: starting from any buffer produced with
the 60-second window, every subsequent sequence of pushes performed with the
window set to 180 seconds leaves the represented duration at most 180 seconds
plus one chunk duration of whole-chunk slack (the push handler reads the
window value current at each push through `instantReplayBufferDurationRef`
and trims against the capacity derived from it). -/
theorem replay_window_resize_invariant (es60 es180 : List Chunk) :
    (runReplayFrom (runReplay 60 es60) 180 es180).length ≤ maxChunks 180 ∧
    durationSeconds (runReplayFrom (runReplay 60 es60) 180 es180) ≤
      180 + REPLAY_CHUNK_DURATION_SECONDS := by
  have h60 : (runReplay 60 es60).length ≤ maxChunks 60 :=
    runReplayFrom_length_le 60 es60 [] (by simp)
  have hle : (runReplay 60 es60).length ≤ maxChunks 180 := by
    have : maxChunks 60 ≤ maxChunks 180 := by decide
    omega
  have hlen := runReplayFrom_length_le 180 es180 (runReplay 60 es60) hle
  refine ⟨hlen, ?_⟩
  have h1 : durationSeconds (runReplayFrom (runReplay 60 es60) 180 es180) ≤
      maxChunks 180 * REPLAY_CHUNK_DURATION_SECONDS :=
    Nat.mul_le_mul_right _ hlen
  have h2 : maxChunks 180 * REPLAY_CHUNK_DURATION_SECONDS = 180 := by decide
  omega

/-- Concatenation of a chunk list into a single artifact, as in
`new Blob(recordedChunksRef.current, { type: 'video/webm' })`. -/
def joinChunks (l : List Chunk) : List Nat := l.flatten

/-- The regular recorder's `ondataavailable` handler: append the chunk to
`recordedChunksRef.current` when `event.data.size > 0`, else ignore it. -/
def regularOnData (chunks : List Chunk) (data : Chunk) : List Chunk :=
  if 0 < data.length then chunks ++ [data] else chunks

/-- Result of the regular recorder's `onstop` handler. `closureStatus` is the
`status` value captured by the handler's closure when `handleStartRecording`
ran (the component state at the render that created the click handler);
`recordedVideoUrl` was reset to `null` by `startRecordingSharedLogic` before
any chunk arrived, so the artifact is whatever this handler produces. -/
structure RegularStopResult where
  status : Status
  recordedVideoUrl : Option (List Nat)
  heldStream : Option Unit
  chunksAfter : List Chunk
deriving DecidableEq, Repr

/-- The regular recorder's `onstop` handler: with zero chunks and a non-idle
captured status it sets `idle`, cleans up and returns early; otherwise it
builds the Blob artifact when chunks exist, sets `stopped`, cleans up the
stream and timers, and clears the chunk list. -/
def regularOnStop (closureStatus : Status) (chunks : List Chunk) : RegularStopResult :=
  if chunks.length = 0 ∧ closureStatus ≠ Status.idle then
    { status := Status.idle
      recordedVideoUrl := none
      heldStream := none
      chunksAfter := chunks }
  else
    { status := Status.stopped
      recordedVideoUrl := if 0 < chunks.length then some (joinChunks chunks) else none
      heldStream := none
      chunksAfter := [] }

/-- C4 counterexample: a zero-chunk stop whose handler closure captured the
`stopped` status (a session started while the UI showed a previous finished
recording) ends in `idle`, not in `stopped` as the claim states. -/
theorem regular_zero_chunk_stop_counterexample :
    regularOnStop Status.stopped [] =
      { status := Status.idle, recordedVideoUrl := none, heldStream := none, chunksAfter := [] } ∧
    Status.idle ≠ Status.stopped := by
  exact ⟨rfl, by decide⟩

/-- C4 (amended): a regular recording stopped with zero chunks reaches the
`stopped` state with an empty result when the session was started from the
`idle` state; when the start happened from a non-idle state (such as
`stopped` or `error`) the zero-chunk stop ends in `idle` instead; in every
case the resulting state is never `error` and no artifact is fabricated. -/
theorem regular_zero_chunk_stop (s : Status) :
    regularOnStop Status.idle [] =
      { status := Status.stopped, recordedVideoUrl := none, heldStream := none, chunksAfter := [] } ∧
    (regularOnStop s []).status ≠ Status.error ∧
    (regularOnStop s []).recordedVideoUrl = none := by
  cases s <;> exact ⟨rfl, by decide, by decide⟩

/-- C5: concatenation correctness: when exactly three non-empty chunks are
delivered to a regular recording before stop, the stored sequence is exactly
those three chunks in delivery order and the exported artifact is their
concatenation in that order, nothing dropped, duplicated or reordered. -/
theorem regular_three_chunk_concat (c1 c2 c3 : Chunk)
    (h1 : 0 < c1.length) (h2 : 0 < c2.length) (h3 : 0 < c3.length) :
    [c1, c2, c3].foldl regularOnData [] = [c1, c2, c3] ∧
    (regularOnStop Status.idle ([c1, c2, c3].foldl regularOnData [])).status = Status.stopped ∧
    (regularOnStop Status.idle ([c1, c2, c3].foldl regularOnData [])).recordedVideoUrl =
      some (c1 ++ c2 ++ c3) := by
  have hfold : [c1, c2, c3].foldl regularOnData [] = [c1, c2, c3] := by
    simp [regularOnData, if_pos, h1, h2, h3]
  refine ⟨hfold, ?_, ?_⟩ <;> rw [hfold]
  · rw [regularOnStop, if_neg (by simp)]
  · rw [regularOnStop, if_neg (by simp)]
    simp [joinChunks]

theorem regular_three_chunk_concat_witness :
    [[1], [2], [3]].foldl regularOnData [] = ([[1], [2], [3]] : List Chunk) ∧
    (regularOnStop Status.idle ([[1], [2], [3]].foldl regularOnData [])).status = Status.stopped ∧
    (regularOnStop Status.idle ([[1], [2], [3]].foldl regularOnData [])).recordedVideoUrl =
      some ([1] ++ [2] ++ [3]) :=
  regular_three_chunk_concat [1] [2] [3] (by decide) (by decide) (by decide)

/-- A `MediaStream` as the component holds it: the display stream carries
video, system audio when requested and granted, and any microphone tracks
that were added to it. -/
structure MediaStream where
  video : Bool
  systemAudio : Bool
  micAudio : Bool
deriving DecidableEq, Repr

/-- How `getDisplayMedia` can reject: a `NotAllowedError`, or any other
error (carrying its `message`). -/
inductive CaptureFailure where
  | notAllowed
  | other (msg : String)
deriving DecidableEq, Repr

/-- Source: alert text for the missing-API branch of `startRecordingSharedLogic`. -/
def unsupportedMessage : String := "Screen recording is not supported by your browser."

/-- Source: alert text for the `NotAllowedError` branch of the catch clause. -/
def deniedMessage : String := "Permission to record screen was denied. Please allow access and try again."

/-- Source: alert text for the generic branch of the catch clause,
interpolating the thrown error's message. -/
def genericMessage (m : String) : String := "An error occurred: " ++ m

/-- Observable outcome of a session-start attempt: the resulting status and
error message, the stream the component holds afterwards, whether the
instant-replay toggle ended up on, whether a microphone warning toast was
shown, whether the shared logic reported success, and whether
`getDisplayMedia` was invoked at all. -/
structure StartOutcome where
  status : Status
  errorMessage : Option String
  heldStream : Option MediaStream
  enableInstantReplay : Bool
  micWarning : Bool
  success : Bool
  captureRequested : Bool
deriving DecidableEq, Repr

/-- The body of `startRecordingSharedLogic`: refuse when the capture API is
absent; otherwise request the display stream; on rejection classify the
error, set `error`, release the stream (`cleanupStream`) and, for replay,
turn the toggle off; on success optionally try the microphone — a mic
failure only produces a warning toast and the session keeps the display
stream (video plus system audio as requested). -/
def startRecordingSharedLogic (supported incSys incMic : Bool)
    (displayResult : Except CaptureFailure Unit) (micOk : Bool)
    (forReplay enableReplay0 : Bool) : StartOutcome :=
  if supported = false then
    { status := Status.error
      errorMessage := some unsupportedMessage
      heldStream := none
      enableInstantReplay := enableReplay0
      micWarning := false
      success := false
      captureRequested := false }
  else
    match displayResult with
    | Except.error e =>
        { status := Status.error
          errorMessage := some (match e with
            | CaptureFailure.notAllowed => deniedMessage
            | CaptureFailure.other m => genericMessage m)
          heldStream := none
          enableInstantReplay := if forReplay then false else enableReplay0
          micWarning := false
          success := false
          captureRequested := true }
    | Except.ok _ =>
        { status := Status.permission_pending
          errorMessage := none
          heldStream := some { video := true, systemAudio := incSys, micAudio := incMic && micOk }
          enableInstantReplay := enableReplay0
          micWarning := incMic && !micOk
          success := true
          captureRequested := true }

/-- The body of `handleStartRecording`: refuse (toast only, no state change)
while the instant-replay toggle is on; otherwise run the shared logic, stop
on failure, and on success install the handlers, start the recorder, and set
`countdown` for a finite duration or `recording` for manual stop. -/
def handleStartRecording (supported incSys incMic : Bool)
    (displayResult : Except CaptureFailure Unit) (micOk : Bool)
    (enableReplay0 : Bool) (durationSeconds0 : Nat)
    (prevStatus : Status) (prevMessage : Option String)
    (prevStream : Option MediaStream) : StartOutcome :=
  if enableReplay0 then
    { status := prevStatus
      errorMessage := prevMessage
      heldStream := prevStream
      enableInstantReplay := enableReplay0
      micWarning := false
      success := false
      captureRequested := false }
  else
    let r := startRecordingSharedLogic supported incSys incMic displayResult micOk false enableReplay0
    if r.success = false then r
    else if 0 < durationSeconds0 then { r with status := Status.countdown }
    else { r with status := Status.recording }

/-- The body of `startInstantReplayBuffering`: refuse while a regular
recording or countdown is active (turning the toggle back off, without
requesting capture); otherwise run the shared logic with `forReplay = true`
(the toggle was just switched on), turn the toggle off on failure, and on
success start the chunked recorder and enter `replay_buffering`. -/
def startInstantReplayBuffering (supported incSys incMic : Bool)
    (displayResult : Except CaptureFailure Unit) (micOk : Bool)
    (prevStatus : Status) (prevMessage : Option String)
    (prevStream : Option MediaStream) : StartOutcome :=
  if prevStatus = Status.recording ∨ prevStatus = Status.countdown then
    { status := prevStatus
      errorMessage := prevMessage
      heldStream := prevStream
      enableInstantReplay := false
      micWarning := false
      success := false
      captureRequested := false }
  else
    let r := startRecordingSharedLogic supported incSys incMic displayResult micOk true true
    if r.success = false then { r with enableInstantReplay := false }
    else { r with status := Status.replay_buffering }

/-- Result of the replay recorder's `onstop` handler. -/
structure ReplayStopResult where
  status : Status
  chunksAfter : List Chunk
  heldStream : Option MediaStream
deriving DecidableEq, Repr

/-- The replay recorder's `onstop` handler: always `cleanupStream`; when the
captured status was `replay_buffering`, go back to `idle` and clear the
buffer (the inner `status !== "replay_saving"` test repeats the same
captured value, so it is true on that branch). -/
def replayOnStop (closureStatus : Status) (chunks : List Chunk) : ReplayStopResult :=
  if closureStatus = Status.replay_buffering then
    { status := Status.idle
      chunksAfter := if closureStatus ≠ Status.replay_saving then [] else chunks
      heldStream := none }
  else
    { status := closureStatus
      chunksAfter := chunks
      heldStream := none }

/-- The unmount effect's cleanup: `cleanupStream()` (release the held
stream) and `replayBufferChunksRef.current = []`, unconditionally. -/
def teardownCleanup (_stream : Option MediaStream) (_chunks : List Chunk) :
    Option MediaStream × List Chunk :=
  (none, [])

theorem generic_ne_denied (m : String) : genericMessage m ≠ deniedMessage := by
  intro h
  obtain ⟨d⟩ := m
  have h2 : 'A' :: ("n error occurred: ".data ++ d) = deniedMessage.data := congrArg String.data h
  have h3 := congrArg List.head? h2
  simp only [List.head?_cons] at h3
  exact absurd h3 (by decide)

theorem generic_ne_unsupported (m : String) : genericMessage m ≠ unsupportedMessage := by
  intro h
  obtain ⟨d⟩ := m
  have h2 : 'A' :: ("n error occurred: ".data ++ d) = unsupportedMessage.data :=
    congrArg String.data h
  have h3 := congrArg List.head? h2
  simp only [List.head?_cons] at h3
  exact absurd h3 (by decide)

theorem denied_ne_unsupported : deniedMessage ≠ unsupportedMessage := by decide

/-- C6: microphone failure is non-fatal: when the capture API is available,
display capture succeeds, microphone audio was requested and its acquisition
fails, the session still reaches the active state (`recording`, or
`countdown` for a finite duration) holding the display stream (video plus
system audio as requested, no mic track), a microphone warning is surfaced,
and no error is recorded — the start is never aborted by the mic failure. -/
theorem mic_failure_nonfatal (incSys : Bool) (dur : Nat) (pS : Status)
    (pM : Option String) (pStream : Option MediaStream) :
    (handleStartRecording true incSys true (Except.ok ()) false false dur pS pM pStream).status =
      (if 0 < dur then Status.countdown else Status.recording) ∧
    (handleStartRecording true incSys true (Except.ok ()) false false dur pS pM pStream).heldStream =
      some { video := true, systemAudio := incSys, micAudio := false } ∧
    (handleStartRecording true incSys true (Except.ok ()) false false dur pS pM pStream).micWarning =
      true ∧
    (handleStartRecording true incSys true (Except.ok ()) false false dur pS pM pStream).success =
      true ∧
    (handleStartRecording true incSys true (Except.ok ()) false false dur pS pM pStream).errorMessage =
      none := by
  by_cases hd : 0 < dur <;>
    simp [handleStartRecording, startRecordingSharedLogic, hd]

/-- C7: capture-acquisition failure semantics: a permission denial sets the
`error` state with the permission message and no held stream; an unsupported
environment sets `error` with the not-supported message and never requests
capture; any other acquisition failure sets `error` with the generic message
carrying the underlying error text; the three messages are pairwise
distinct, so the cases are user-distinguishable; in every failure case the
start reports no success, so nothing retries until a fresh user start. -/
theorem capture_failure_semantics (incSys incMic micOk : Bool) (dur : Nat)
    (pS : Status) (pM : Option String) (pStream : Option MediaStream)
    (dres : Except CaptureFailure Unit) (m : String) :
    handleStartRecording true incSys incMic (Except.error CaptureFailure.notAllowed)
        micOk false dur pS pM pStream =
      { status := Status.error, errorMessage := some deniedMessage, heldStream := none,
        enableInstantReplay := false, micWarning := false, success := false,
        captureRequested := true } ∧
    handleStartRecording false incSys incMic dres micOk false dur pS pM pStream =
      { status := Status.error, errorMessage := some unsupportedMessage, heldStream := none,
        enableInstantReplay := false, micWarning := false, success := false,
        captureRequested := false } ∧
    handleStartRecording true incSys incMic (Except.error (CaptureFailure.other m))
        micOk false dur pS pM pStream =
      { status := Status.error, errorMessage := some (genericMessage m), heldStream := none,
        enableInstantReplay := false, micWarning := false, success := false,
        captureRequested := true } ∧
    deniedMessage ≠ unsupportedMessage ∧
    genericMessage m ≠ deniedMessage ∧
    genericMessage m ≠ unsupportedMessage :=
  ⟨rfl, rfl, rfl, denied_ne_unsupported, generic_ne_denied m, generic_ne_unsupported m⟩

/-- C8: single live session invariant: starting a regular recording while
the instant-replay toggle is on is refused with no state change and no
capture request; enabling instant replay while a regular recording or
countdown is active is refused, turns the toggle back off and requests no
capture; and every exit path releases the held stream — the regular and
replay `onstop` handlers, the acquisition-failure path, the unsupported
path, and the unmount teardown all leave no stream held. -/
theorem single_live_session (supported incSys incMic fr er : Bool)
    (dres : Except CaptureFailure Unit) (micOk : Bool) (dur : Nat)
    (pS : Status) (pM : Option String) (pStream : Option MediaStream)
    (e : CaptureFailure) (s : Status) (chunks : List Chunk) :
    handleStartRecording supported incSys incMic dres micOk true dur pS pM pStream =
      { status := pS, errorMessage := pM, heldStream := pStream,
        enableInstantReplay := true, micWarning := false, success := false,
        captureRequested := false } ∧
    startInstantReplayBuffering supported incSys incMic dres micOk Status.recording pM pStream =
      { status := Status.recording, errorMessage := pM, heldStream := pStream,
        enableInstantReplay := false, micWarning := false, success := false,
        captureRequested := false } ∧
    startInstantReplayBuffering supported incSys incMic dres micOk Status.countdown pM pStream =
      { status := Status.countdown, errorMessage := pM, heldStream := pStream,
        enableInstantReplay := false, micWarning := false, success := false,
        captureRequested := false } ∧
    (regularOnStop s chunks).heldStream = none ∧
    (replayOnStop s chunks).heldStream = none ∧
    (startRecordingSharedLogic supported incSys incMic (Except.error e) micOk fr er).heldStream =
      none ∧
    (startRecordingSharedLogic false incSys incMic dres micOk fr er).heldStream = none ∧
    (teardownCleanup pStream chunks).1 = none := by
  refine ⟨rfl, rfl, rfl, ?_, ?_, ?_, rfl, rfl⟩
  · rw [regularOnStop]; split <;> rfl
  · rw [replayOnStop]; split <;> rfl
  · cases supported <;> simp [startRecordingSharedLogic]

/-- Source: `Math.max(1, Math.ceil(desiredClipDurationSeconds /
REPLAY_CHUNK_DURATION_SECONDS))` in `handleSaveLastClip`. -/
def numberOfChunksToSave (window : Nat) : Nat := max 1 (maxChunks window)

/-- Source: `replayBufferChunksRef.current.slice(-numberOfChunksToSave)` —
for a positive count, `Array.slice` with a negative start returns the last
that many elements (all of them when the count exceeds the length). -/
def sliceLast (n : Nat) (l : List Chunk) : List Chunk := l.drop (l.length - n)

/-- Observable outcome of `handleSaveLastClip`. -/
structure SaveClipOutcome where
  status : Status
  artifact : Option (List Nat)
  chunksAfter : List Chunk
  enableInstantReplay : Bool
deriving DecidableEq, Repr

/-- The body of `handleSaveLastClip`: bail out on an empty buffer; otherwise
slice out the most recent chunks for the configured clip duration, build the
Blob from that copy and trigger the download, then pick the next state: with
replay still enabled and the stream active, restart the recorder (clearing
the buffer) if it had gone inactive, or simply resume `replay_buffering`
leaving the buffer untouched; with the stream dead or replay disabled, fall
back to `idle` with a cleared buffer. -/
def handleSaveLastClip (window : Nat) (enableReplay streamActive recorderInactive : Bool)
    (status0 : Status) (chunks : List Chunk) : SaveClipOutcome :=
  if chunks.length = 0 then
    { status := status0, artifact := none, chunksAfter := chunks,
      enableInstantReplay := enableReplay }
  else
    let chunksForClip := sliceLast (numberOfChunksToSave window) chunks
    if chunksForClip.length = 0 then
      { status := if enableReplay then Status.replay_buffering else Status.idle,
        artifact := none, chunksAfter := chunks, enableInstantReplay := enableReplay }
    else
      let blob := joinChunks chunksForClip
      if enableReplay then
        if streamActive && recorderInactive then
          { status := Status.replay_buffering, artifact := some blob, chunksAfter := [],
            enableInstantReplay := true }
        else if streamActive then
          { status := Status.replay_buffering, artifact := some blob, chunksAfter := chunks,
            enableInstantReplay := true }
        else
          { status := Status.idle, artifact := some blob, chunksAfter := [],
            enableInstantReplay := false }
      else
        { status := Status.idle, artifact := some blob, chunksAfter := [],
          enableInstantReplay := false }

theorem sliceLast_length_pos (n : Nat) (l : List Chunk) (hn : 0 < n) (hl : 0 < l.length) :
    0 < (sliceLast n l).length := by
  rw [sliceLast, List.length_drop]
  omega

/-- C9: snapshot does not mutate: saving a replay clip while buffering
continues (replay enabled, stream active, recorder still running) builds its
artifact from a copy — the concatenation of the most recent slice of the
buffer — returns to `replay_buffering`, and leaves the buffer exactly as it
was, so every subsequent sequence of pushes observes the same buffer it
would have observed had no snapshot been taken. -/
theorem snapshot_preserves_buffer (window w2 : Nat) (chunks es : List Chunk)
    (h : 0 < chunks.length) :
    (handleSaveLastClip window true true false Status.replay_buffering chunks).chunksAfter =
      chunks ∧
    (handleSaveLastClip window true true false Status.replay_buffering chunks).artifact =
      some (joinChunks (sliceLast (numberOfChunksToSave window) chunks)) ∧
    (handleSaveLastClip window true true false Status.replay_buffering chunks).status =
      Status.replay_buffering ∧
    runReplayFrom
        ((handleSaveLastClip window true true false Status.replay_buffering chunks).chunksAfter)
        w2 es =
      runReplayFrom chunks w2 es := by
  have hclip : 0 < (sliceLast (numberOfChunksToSave window) chunks).length :=
    sliceLast_length_pos _ _ (Nat.le_max_left 1 _) h
  have hmain : handleSaveLastClip window true true false Status.replay_buffering chunks =
      { status := Status.replay_buffering,
        artifact := some (joinChunks (sliceLast (numberOfChunksToSave window) chunks)),
        chunksAfter := chunks, enableInstantReplay := true } := by
    rw [handleSaveLastClip, if_neg (by omega)]
    simp only [if_neg (by omega : ¬ (sliceLast (numberOfChunksToSave window) chunks).length = 0)]
    rfl
  rw [hmain]
  exact ⟨rfl, rfl, rfl, rfl⟩

theorem snapshot_preserves_buffer_witness :
    (handleSaveLastClip 60 true true false Status.replay_buffering [[1]]).chunksAfter =
      [[1]] ∧
    (handleSaveLastClip 60 true true false Status.replay_buffering [[1]]).artifact =
      some (joinChunks (sliceLast (numberOfChunksToSave 60) [[1]])) ∧
    (handleSaveLastClip 60 true true false Status.replay_buffering [[1]]).status =
      Status.replay_buffering ∧
    runReplayFrom
        ((handleSaveLastClip 60 true true false Status.replay_buffering [[1]]).chunksAfter)
        60 [[2]] =
      runReplayFrom [[1]] 60 [[2]] :=
  snapshot_preserves_buffer 60 60 [[1]] [[2]] (by decide)

theorem trimLoop_subset (m : Nat) (l : List Chunk) (c : Chunk)
    (h : c ∈ trimLoop m l) : c ∈ l := by
  induction l with
  | nil => simp [trimLoop] at h
  | cons b rest ih =>
    rw [trimLoop_cons] at h
    by_cases hlen : m < (b :: rest).length
    · rw [if_pos hlen] at h
      exact List.mem_cons_of_mem b (ih h)
    · rwa [if_neg hlen] at h

theorem regularOnData_fold_pos (events : List Chunk) (acc : List Chunk) (c : Chunk)
    (hacc : ∀ x ∈ acc, 0 < x.length)
    (h : c ∈ events.foldl regularOnData acc) : 0 < c.length := by
  induction events generalizing acc with
  | nil => exact hacc c h
  | cons e es ih =>
    rw [List.foldl_cons] at h
    refine ih (regularOnData acc e) ?_ h
    intro x hx
    rw [regularOnData] at hx
    split at hx
    · next he =>
        rcases List.mem_append.1 hx with hx' | hx'
        · exact hacc x hx'
        · rw [List.mem_singleton.1 hx']; exact he
    · exact hacc x hx

theorem replayOnData_fold_pos (window : Nat) (events : List Chunk) (acc : List Chunk)
    (c : Chunk) (hacc : ∀ x ∈ acc, 0 < x.length)
    (h : c ∈ events.foldl (replayOnDataAvailable window) acc) : 0 < c.length := by
  induction events generalizing acc with
  | nil => exact hacc c h
  | cons e es ih =>
    rw [List.foldl_cons] at h
    refine ih (replayOnDataAvailable window acc e) ?_ h
    intro x hx
    rw [replayOnDataAvailable] at hx
    split at hx
    · next he =>
        rcases List.mem_append.1 (trimLoop_subset _ _ _ hx) with hx' | hx'
        · exact hacc x hx'
        · rw [List.mem_singleton.1 hx']; exact he
    · exact hacc x hx

/-- C10 (implicit): both `ondataavailable` handlers discard zero-sized data
events before insertion, so after any sequence of delivered events every
chunk stored in the regular recording sequence and every chunk stored in the
replay buffer has size strictly greater than zero. -/
theorem stored_chunks_positive (window : Nat) (events : List Chunk) (c : Chunk) :
    (c ∈ events.foldl regularOnData [] → 0 < c.length) ∧
    (c ∈ runReplay window events → 0 < c.length) := by
  constructor
  · exact fun h => regularOnData_fold_pos events [] c (by simp) h
  · exact fun h => replayOnData_fold_pos window events [] c (by simp) h

theorem stored_chunks_positive_witness :
    0 < ([7] : Chunk).length ∧ 0 < ([7] : Chunk).length :=
  ⟨(stored_chunks_positive 60 [[7]] [7]).1 (by decide),
   (stored_chunks_positive 60 [[7]] [7]).2 (by decide)⟩

end ScreenCatcher
